import Mathlib

/-!
Verification of the gas-properties particle-system model.

The JavaScript sources are embedded shallowly over the rationals.
Machine floating-point arithmetic is modelled by exact rational
arithmetic.  A particle velocity is stored in polar form: the squared
magnitude (field speedSq, so that speed equations such as
speed = sqrt(3 k T / m) become exact rational equations speedSq = 3 k T / m)
together with the direction angle measured in units of pi radians
(field angleCoeff, so that the dispersion angle pi/2 becomes the exact
rational coefficient 1/2).
-/

namespace GasProps

/-- Boltzmann constant k from GasPropertiesConstants.BOLTZMANN,
8.316E3 in (pm^2 * AMU)/(ps^2 * K). -/
def BOLTZMANN : ℚ := 8316

/-- Container height from BaseContainer, in pm. -/
def containerHeight : ℚ := 8750

/-- Container depth from BaseContainer, in pm. -/
def containerDepth : ℚ := 4000

/-- Modelled from the spec: the Particle primitive (Particle.js is not among
the provided sources).  A particle has immutable mass and radius, a mutable
position and a mutable velocity (a 2D vector, stored here in polar form:
squared magnitude speedSq and direction angleCoeff in units of pi radians). -/
structure Particle where
  mass : ℚ
  radius : ℚ
  x : ℚ
  y : ℚ
  speedSq : ℚ
  angleCoeff : ℚ
  deriving DecidableEq, Repr

/-- Modelled from the spec: kineticEnergy() = (1/2) * mass * |velocity|^2. -/
def Particle.kineticEnergy (p : Particle) : ℚ :=
  p.mass * p.speedSq / 2

/-- Modelled from the spec: set the particle location (Particle.setLocationXY). -/
def Particle.setLocationXY (p : Particle) (x y : ℚ) : Particle :=
  { p with x := x, y := y }

/-- Modelled from the spec: set the particle velocity by polar decomposition
(Particle.setVelocityPolar).  The magnitude is supplied through its square. -/
def Particle.setVelocityPolar (p : Particle) (magnitudeSq angleCoeff : ℚ) : Particle :=
  { p with speedSq := magnitudeSq, angleCoeff := angleCoeff }

/-- Modelled from the spec: set the velocity magnitude, keeping the direction
(Particle.setVelocityMagnitude).  The magnitude is supplied through its square. -/
def Particle.setVelocityMagnitudeSq (p : Particle) (magnitudeSq : ℚ) : Particle :=
  { p with speedSq := magnitudeSq }

/-- Well-formedness of a particle per the data model: positive mass, positive
radius, and a nonnegative squared speed. -/
def Particle.WF (p : Particle) : Prop :=
  0 < p.mass ∧ 0 < p.radius ∧ 0 ≤ p.speedSq

instance (p : Particle) : Decidable p.WF := by
  unfold Particle.WF; infer_instance

/-- Total kinetic energy of a list of particles
(ParticleUtils.getTotalKineticEnergy, summation as in IdealModel.updateTemperature). -/
def totalKE (l : List Particle) : ℚ :=
  (l.map Particle.kineticEnergy).sum

/-- Average kinetic energy of a list of particles: total divided by count. -/
def averageKE (l : List Particle) : ℚ :=
  totalKE l / l.length

/-- Temperature derivation from IdealModel.updateTemperature: null when the
container holds no particles, otherwise T = (2/3) * averageKE / k where the
average is taken over the heavy and light inside-particle arrays. -/
def updateTemperature (heavy light : List Particle) : Option ℚ :=
  let numberOfParticles : ℕ := heavy.length + light.length
  if numberOfParticles = 0 then
    none
  else
    some ((2 / 3) * ((totalKE heavy + totalKE light) / numberOfParticles) / BOLTZMANN)

/-- Axis-aligned bounds rectangle (DOT Bounds2). -/
structure Bounds where
  minX : ℚ
  maxX : ℚ
  minY : ℚ
  maxY : ℚ
  deriving DecidableEq, Repr

/-- Bounds2.containsPoint: inclusive containment of a point. -/
def Bounds.containsPoint (b : Bounds) (x y : ℚ) : Prop :=
  b.minX ≤ x ∧ x ≤ b.maxX ∧ b.minY ≤ y ∧ y ≤ b.maxY

instance (b : Bounds) (x y : ℚ) : Decidable (b.containsPoint x y) := by
  unfold Bounds.containsPoint; infer_instance

/-- Particles of a list whose location lies in the given bounds, in order. -/
def insideBounds (b : Bounds) (l : List Particle) : List Particle :=
  l.filter fun p => decide (b.containsPoint p.x p.y)

/-- Result of DiffusionData.update: values of the three Properties it writes. -/
structure DiffusionDataValues where
  numberOfParticles1 : ℕ
  numberOfParticles2 : ℕ
  averageTemperature : Option ℚ
  deriving DecidableEq, Repr

/-- DiffusionData.update: count the particles of each species inside this
side of the container, accumulate their kinetic energy, and derive the
average temperature T = (2/3) * averageKE / k, null when the side is empty. -/
def diffusionDataUpdate (b : Bounds) (particles1 particles2 : List Particle) :
    DiffusionDataValues :=
  let n1 : ℕ := (insideBounds b particles1).length
  let n2 : ℕ := (insideBounds b particles2).length
  let tKE : ℚ := totalKE (insideBounds b particles1) + totalKE (insideBounds b particles2)
  { numberOfParticles1 := n1
    numberOfParticles2 := n2
    averageTemperature :=
      if n1 + n2 = 0 then none
      else some ((2 / 3) * (tKE / (n1 + n2)) / BOLTZMANN) }

/-- GasPropertiesUtils.getGaussianValues: generate n values with a Gaussian
mean and deviation, then shift every value by the difference between the
desired mean and the emergent mean, so that the actual mean matches the
desired mean.  The external DOT boxMullerTransform(mean, deviation, random)
is modelled by mean + deviation * z i, where z supplies the standard normal
draws taken from the random source.  The threshold argument of the source
only feeds a development-time assertion and has no effect on the result. -/
def getGaussianValues (n : ℕ) (mean deviation : ℚ) (z : ℕ → ℚ) : List ℚ :=
  let values := (List.range n).map fun i => mean + deviation * z i
  let emergentMean := values.sum / n
  let deltaMean := mean - emergentMean
  values.map fun v => v + deltaMean

/-- The constructor arguments of ParticleSystem that addParticles reads:
the value returned by getInitialTemperature(), the value of
collisionsEnabledProperty, and particleEntryLocation. -/
structure ParticleSystemConfig where
  initialTemperature : ℚ
  collisionsEnabled : Bool
  entryX : ℚ
  entryY : ℚ
  deriving DecidableEq, Repr

/-- The temperature values used by ParticleSystem.addParticles to compute the
initial speed of each of the n new particles: Gaussian values around the
initial temperature with deviation 0.2 times the initial temperature when
n is not 1 and particle-particle collisions are enabled, otherwise the
initial temperature for every particle. -/
def particleTemperatures (cfg : ParticleSystemConfig) (n : ℕ) (z : ℕ → ℚ) : List ℚ :=
  if n ≠ 1 ∧ cfg.collisionsEnabled then
    getGaussianValues n cfg.initialTemperature (1/5 * cfg.initialTemperature) z
  else
    List.replicate n cfg.initialTemperature

/-- PARTICLE_DISPERSION_ANGLE = pi/2, expressed in units of pi. -/
def PARTICLE_DISPERSION_ANGLE_COEFF : ℚ := 1/2

/-- One new particle as built in the loop of ParticleSystem.addParticles:
start from the particle returned by createParticle (the proto argument),
position it just inside the container accounting for radius, and set the
initial velocity: squared magnitude 3*k*T/mass (the source sets the
magnitude sqrt(3*k*T/mass)) and angle pi - dispersion/2 + u * dispersion
(in units of pi here) where u is the uniform draw in [0,1) from the
random source. -/
def createdParticle (cfg : ParticleSystemConfig) (proto : Particle) (temp u : ℚ) :
    Particle :=
  (proto.setLocationXY (cfg.entryX - proto.radius) cfg.entryY).setVelocityPolar
    (3 * BOLTZMANN * temp / proto.mass)
    (1 - PARTICLE_DISPERSION_ANGLE_COEFF / 2 + u * PARTICLE_DISPERSION_ANGLE_COEFF)

/-- ParticleSystem.addParticles: append n new particles to the end of the
array.  The random source is supplied through z (standard normal draws
consumed by getGaussianValues) and u (uniform draws consumed for the
velocity angle). -/
def addParticles (cfg : ParticleSystemConfig) (n : ℕ) (particles : List Particle)
    (proto : Particle) (z u : ℕ → ℚ) : List Particle :=
  let temperatures := particleTemperatures cfg n z
  particles ++ (List.range n).map fun i => createdParticle cfg proto (temperatures.getD i 0) (u i)

/-- The removeParticle helper of IdealModel: remove a particle from the array
by locating it with indexOf and splicing it out.  JavaScript indexOf uses
reference equality on objects; with value semantics this is removal of the
first occurrence. -/
def removeParticle (p : Particle) (particles : List Particle) : List Particle :=
  particles.erase p

/-- The removeParticles helper of IdealModel (and, modelled from the spec,
ParticleUtils.removeParticles, which is not among the provided sources and
is described as removing the n most-recently-added particles): slice the
last n particles off the array and remove each of them. -/
def removeParticles (n : ℕ) (particles : List Particle) : List Particle :=
  let particlesToRemove := particles.drop (particles.length - n)
  particlesToRemove.foldl (fun acc q => removeParticle q acc) particles

/-- ParticleSystem.updateNumberOfParticles: reconcile the array of particles
with the requested number.  When the array length already equals the new
value nothing happens; otherwise the delta newValue - oldValue decides
between adding and removing. -/
def updateNumberOfParticles (cfg : ParticleSystemConfig) (newValue oldValue : ℕ)
    (particles : List Particle) (proto : Particle) (z u : ℕ → ℚ) : List Particle :=
  if particles.length ≠ newValue then
    if oldValue < newValue then
      addParticles cfg (newValue - oldValue) particles proto z u
    else if newValue < oldValue then
      removeParticles (oldValue - newValue) particles
    else
      particles
  else
    particles

/-- The particle-system state read by setTemperature: the two arrays of
particles inside the container (insideParticleArrays). -/
structure PSys where
  heavy : List Particle
  light : List Particle
  deriving DecidableEq, Repr

/-- ParticleSystem.getTotalKineticEnergy. -/
def PSys.getTotalKineticEnergy (sys : PSys) : ℚ :=
  totalKE sys.heavy + totalKE sys.light

/-- N, the total number of particles in the container
(numberOfParticlesProperty). -/
def PSys.numberOfParticles (sys : PSys) : ℕ :=
  sys.heavy.length + sys.light.length

/-- ParticleSystem.getAverageKineticEnergy: total kinetic energy divided by
the number of particles in the container. -/
def PSys.getAverageKineticEnergy (sys : PSys) : ℚ :=
  sys.getTotalKineticEnergy / sys.numberOfParticles

/-- The body of the loop of ParticleSystem.setTemperature: scale the kinetic
energy of one particle by the precomputed factor desiredAverageKE /
actualAverageKE, setting the velocity magnitude to sqrt(2 * desiredKE / mass)
(stored here through its square). -/
def setTemperatureParticle (scale : ℚ) (p : Particle) : Particle :=
  let desiredParticleKE := scale * p.kineticEnergy
  p.setVelocityMagnitudeSq (2 * desiredParticleKE / p.mass)

/-- ParticleSystem.setTemperature: rescale the velocity magnitude of every
particle inside the container so that the resulting temperature matches the
specified temperature, via desiredAverageKE = (3/2) * temperature * k and
the per-particle kinetic-energy scale desiredAverageKE / actualAverageKE. -/
def PSys.setTemperature (sys : PSys) (temperature : ℚ) : PSys :=
  let desiredAverageKE := 3 / 2 * temperature * BOLTZMANN
  let actualAverageKE := sys.getAverageKineticEnergy
  let scale := desiredAverageKE / actualAverageKE
  { heavy := sys.heavy.map (setTemperatureParticle scale)
    light := sys.light.map (setTemperatureParticle scale) }

/-- A width range as configured through DOT RangeWithValue:
minimum, maximum and default value. -/
structure WidthRange where
  low : ℚ
  high : ℚ
  defaultValue : ℚ
  deriving DecidableEq, Repr

/-- Well-formedness of a configured width range: positive minimum and the
default value inside the range. -/
def WidthRange.WF (r : WidthRange) : Prop :=
  0 < r.low ∧ r.low ≤ r.defaultValue ∧ r.defaultValue ≤ r.high

instance (r : WidthRange) : Decidable r.WF := by
  unfold WidthRange.WF; infer_instance

/-- The widthRange used by BaseContainer when no option overrides it:
RangeWithValue( 5000, 15000, 10000 ), in pm. -/
def defaultWidthRange : WidthRange :=
  { low := 5000, high := 15000, defaultValue := 10000 }

/-- The mutable state of BaseContainer that the width and volume claims
depend on: the configured range and the current width. -/
structure Container where
  widthRange : WidthRange
  width : ℚ
  deriving DecidableEq, Repr

/-- A fresh BaseContainer: widthProperty starts at the default value of its
range. -/
def Container.init (r : WidthRange) : Container :=
  { widthRange := r, width := r.defaultValue }

/-- Assignment to widthProperty.  widthProperty is a NumberProperty with a
range, so a value outside the range is rejected at the boundary (the
mutation is refused), per the validation of the range option. -/
def Container.setWidth (c : Container) (w : ℚ) : Container :=
  if c.widthRange.low ≤ w ∧ w ≤ c.widthRange.high then { c with width := w } else c

/-- BaseContainer.reset: widthProperty.reset() restores the default value. -/
def Container.resetWidth (c : Container) : Container :=
  { c with width := c.widthRange.defaultValue }

/-- V, the volume of the container: width * height * depth
(volumeProperty of BaseContainer). -/
def Container.volume (c : Container) : ℚ :=
  c.width * containerHeight * containerDepth

/-- The operations that mutate the width of a container. -/
inductive ContainerOp where
  | setWidth (w : ℚ)
  | reset
  deriving DecidableEq, Repr

/-- Apply one container operation. -/
def Container.applyOp (c : Container) (op : ContainerOp) : Container :=
  match op with
  | ContainerOp.setWidth w => c.setWidth w
  | ContainerOp.reset => c.resetWidth

/-- Apply a sequence of container operations, oldest first. -/
def Container.applyOps (c : Container) (ops : List ContainerOp) : Container :=
  ops.foldl Container.applyOp c

/-- The container invariant of the data model: the width lies within the
configured range and the volume is strictly positive. -/
def Container.Invariant (c : Container) : Prop :=
  c.widthRange.low ≤ c.width ∧ c.width ≤ c.widthRange.high ∧ 0 < c.volume

/-- Modelled from the spec: the pressure derivation (the model class that owns
pressureProperty is not among the provided sources).  Wall-collision momentum
transfer is accumulated over a fixed sampling window and divided by the
window duration and a configured conversion constant; when the container is
empty, pressure is exactly zero regardless of the accumulator. -/
def derivedPressure (numberOfParticles : ℕ)
    (accumulatedMomentum samplingWindow conversionConstant : ℚ) : ℚ :=
  if numberOfParticles = 0 then 0
  else accumulatedMomentum / (samplingWindow * conversionConstant)

/-- The quantity held constant (HoldConstant enumeration). -/
inductive HoldConstant where
  | nothing
  | volume
  | temperature
  | pressureT
  | pressureV
  deriving DecidableEq, Repr

/-- PressureGauge.REFRESH_PERIOD = 0.75 ps. -/
def REFRESH_PERIOD : ℚ := 3/4

/-- MIN_NOISE = 0 kPa. -/
def MIN_NOISE : ℚ := 0

/-- MAX_NOISE = 50 kPa. -/
def MAX_NOISE : ℚ := 50

/-- DOT LinearFunction with clamping: map x linearly from [a1,a2] to [b1,b2]
and clamp the output between b1 and b2. -/
def linearFunctionClamped (a1 a2 b1 b2 x : ℚ) : ℚ :=
  let y := b1 + (x - a1) * (b2 - b1) / (a2 - a1)
  max (min b1 b2) (min (max b1 b2) y)

/-- pressureNoiseFunction of PressureGauge: the amount of noise in kPa is
inversely proportional to pressure, clamped; maxPressure is the query
parameter GasPropertiesQueryParameters.maxPressure. -/
def pressureNoiseFunction (maxPressure x : ℚ) : ℚ :=
  linearFunctionClamped 0 maxPressure MAX_NOISE MIN_NOISE x

/-- scaleNoiseFunction of PressureGauge: noise scale factor from temperature,
clamped to [0,1] so that noise falls off at low temperatures. -/
def scaleNoiseFunction (x : ℚ) : ℚ :=
  linearFunctionClamped 5 50 0 1 x

/-- The mutable state of PressureGauge: the displayed value
(pressureKilopascalsProperty) and the dt accumulator. -/
structure GaugeState where
  pressureKilopascals : ℚ
  dtAccumulator : ℚ
  deriving DecidableEq, Repr

/-- The listener that PressureGauge links to pressureProperty: when pressure
goes to zero, update the gauge immediately (without touching the dt
accumulator or waiting for the refresh period). -/
def gaugeOnPressureChanged (pressure : ℚ) (g : GaugeState) : GaugeState :=
  if pressure = 0 then { g with pressureKilopascals := 0 } else g

/-- PressureGauge.step: accumulate dt; once the refresh period has elapsed,
compute the optional noise (zero when a pressure-hold mode is engaged or
noise is globally disabled), randomly flip its sign when doing so cannot
drive the displayed pressure to zero or below, display pressure + noise and
restart the accumulator.  The random source is supplied through u (the
uniform draw in [0,1)) and positiveSign (the boolean draw).  A null
temperature reading enters the scale-noise function as zero, mirroring the
arithmetic coercion of null in the source language. -/
def pressureGaugeStep (dt maxPressure pressure : ℚ) (temperature : Option ℚ)
    (holdConstant : HoldConstant) (pressureNoiseOption : Bool) (u : ℚ)
    (positiveSign : Bool) (g : GaugeState) : GaugeState :=
  let acc := g.dtAccumulator + dt
  if REFRESH_PERIOD ≤ acc then
    let constantPressure : Bool :=
      holdConstant = HoldConstant.pressureT ∨ holdConstant = HoldConstant.pressureV
    let noiseEnabled : Bool := !constantPressure && pressureNoiseOption
    let noiseMagnitude : ℚ :=
      if noiseEnabled then
        pressureNoiseFunction maxPressure pressure * scaleNoiseFunction (temperature.getD 0) * u
      else 0
    let noise : ℚ :=
      if noiseMagnitude < pressure then
        (if positiveSign then noiseMagnitude else -noiseMagnitude)
      else noiseMagnitude
    { pressureKilopascals := pressure + noise, dtAccumulator := 0 }
  else
    { g with dtAccumulator := acc }

/-- BaseContainer.containsParticle, restated for a bounds rectangle: the
bounds fully contain the particle disc (left, right, bottom and top edges of
the particle inside the bounds). -/
def Bounds.containsParticle (b : Bounds) (p : Particle) : Prop :=
  b.minX ≤ p.x - p.radius ∧ p.x + p.radius ≤ b.maxX ∧
  b.minY ≤ p.y - p.radius ∧ p.y + p.radius ≤ b.maxY

instance (b : Bounds) (p : Particle) : Decidable (b.containsParticle p) := by
  unfold Bounds.containsParticle; infer_instance

/-- Modelled from the spec: the particle-container collision response of
CollisionDetector.doParticleContainerCollisions for one particle
(CollisionDetector.js is not among the provided sources).  A particle whose
disc has crossed a wall of the bounds is repositioned just inside that wall
and the velocity component normal to the wall is reflected (in the polar
encoding, reflecting the x component maps the angle coefficient c to 1 - c
and reflecting the y component maps it to -c).  The momentum transfer from a
moving left wall is omitted: the diffusion screen has no movable wall, and
the divider branch of the diffusion detector passes a zero left-wall
velocity (Vector2.ZERO). -/
def bounceOffVerticalWalls (b : Bounds) (p : Particle) : Particle :=
  if p.x - p.radius ≤ b.minX then
    { p with x := b.minX + p.radius, angleCoeff := 1 - p.angleCoeff }
  else if b.maxX ≤ p.x + p.radius then
    { p with x := b.maxX - p.radius, angleCoeff := 1 - p.angleCoeff }
  else p

/-- Modelled from the spec: the horizontal-wall (bottom and top) part of the
particle-container collision response; see bounceOffVerticalWalls. -/
def bounceOffHorizontalWalls (b : Bounds) (p : Particle) : Particle :=
  if p.y - p.radius ≤ b.minY then
    { p with y := b.minY + p.radius, angleCoeff := -p.angleCoeff }
  else if b.maxY ≤ p.y + p.radius then
    { p with y := b.maxY - p.radius, angleCoeff := -p.angleCoeff }
  else p

/-- Modelled from the spec: full particle-container collision response for
one particle, left and right walls first, then bottom and top. -/
def bounceOffWalls (b : Bounds) (p : Particle) : Particle :=
  bounceOffHorizontalWalls b (bounceOffVerticalWalls b p)

/-- Modelled from the spec: CollisionDetector.doParticleContainerCollisions
applied to a whole array of particles against one bounds rectangle. -/
def doParticleContainerCollisions (particles : List Particle) (b : Bounds) :
    List Particle :=
  particles.map (bounceOffWalls b)

/-- The DiffusionContainer state that the diffusion collision detector reads:
the outer bounds, the divider x position and whether the divider is in
place.  Modelled from the spec where DiffusionContainer is not among the
provided sources; leftBounds and rightBounds split the outer bounds at the
divider. -/
structure DiffusionContainer where
  bounds : Bounds
  dividerX : ℚ
  hasDivider : Bool
  deriving DecidableEq, Repr

/-- The left half of a divided diffusion container. -/
def DiffusionContainer.leftBounds (c : DiffusionContainer) : Bounds :=
  { c.bounds with maxX := c.dividerX }

/-- The right half of a divided diffusion container. -/
def DiffusionContainer.rightBounds (c : DiffusionContainer) : Bounds :=
  { c.bounds with minX := c.dividerX }

/-- DiffusionCollisionDetector.updateParticleContainerCollisions: when the
divider is in place, treat the two sides of the container as two separate
containers, resolving the species-1 particles against the left bounds and
the species-2 particles against the right bounds, both with a stationary
left wall; when there is no divider, use the default behavior, resolving
both species against the full container bounds. -/
def updateParticleContainerCollisions (c : DiffusionContainer)
    (particles1 particles2 : List Particle) : List Particle × List Particle :=
  if c.hasDivider then
    (doParticleContainerCollisions particles1 c.leftBounds,
     doParticleContainerCollisions particles2 c.rightBounds)
  else
    (doParticleContainerCollisions particles1 c.bounds,
     doParticleContainerCollisions particles2 c.bounds)

/-! Helper lemmas. -/

theorem totalKE_append (l1 l2 : List Particle) :
    totalKE (l1 ++ l2) = totalKE l1 + totalKE l2 := by
  simp [totalKE]

theorem totalKE_nil : totalKE [] = 0 := rfl

theorem sum_map_add_const (l : List ℚ) (d : ℚ) :
    (l.map fun v => v + d).sum = l.sum + l.length * d := by
  induction l with
  | nil => simp
  | cons a t ih => simp [ih]; ring

/-! Claim C1. -/

/-- C1: temperature derivation.  When the number of live inside-particles is
zero the derived temperature is null (no reading); otherwise it is
(2/3) times the average kinetic energy over all live inside-particles
divided by the Boltzmann constant k.  Stated for both derivations the claim
names: IdealModel.updateTemperature (averaging over the heavy and light
inside-particle arrays) and DiffusionData.update (averaging over the
particles of both species inside the bounds of one side). -/
theorem temperature_derivation_spec (heavy light : List Particle)
    (b : Bounds) (particles1 particles2 : List Particle) :
    updateTemperature heavy light =
      (if heavy.length + light.length = 0 then none
       else some (2 / 3 * averageKE (heavy ++ light) / BOLTZMANN)) ∧
    (diffusionDataUpdate b particles1 particles2).averageTemperature =
      (if (insideBounds b particles1).length + (insideBounds b particles2).length = 0
       then none
       else some (2 / 3 *
         averageKE (insideBounds b particles1 ++ insideBounds b particles2) / BOLTZMANN)) := by
  constructor
  · by_cases h : heavy.length + light.length = 0
    · simp [updateTemperature, h]
    · simp only [updateTemperature, averageKE, totalKE_append, List.length_append,
        Nat.cast_add, h, if_false]
  · by_cases h : (insideBounds b particles1).length + (insideBounds b particles2).length = 0
    · simp [diffusionDataUpdate, h]
    · simp only [diffusionDataUpdate, averageKE, totalKE_append, List.length_append,
        Nat.cast_add, h, if_false]

/-! Claim C7. -/

/-- C7: population reconciliation is idempotent.  Setting a species
population target to a value equal to the current number of live particles
of that species causes no additions and no removals: the live collection is
returned unchanged, whatever the previous target and the random source
were. -/
theorem updateNumberOfParticles_idempotent (cfg : ParticleSystemConfig)
    (newValue oldValue : ℕ) (particles : List Particle) (proto : Particle)
    (z u : ℕ → ℚ) (h : particles.length = newValue) :
    updateNumberOfParticles cfg newValue oldValue particles proto z u = particles := by
  simp [updateNumberOfParticles, h]

/-- Witness for C7 at a concrete input. -/
theorem updateNumberOfParticles_idempotent_witness :
    updateNumberOfParticles
      { initialTemperature := 300, collisionsEnabled := true, entryX := 0, entryY := 0 }
      2 5 [⟨28, 125, 0, 0, 100, 0⟩, ⟨28, 125, 7, 7, 200, 1⟩] ⟨28, 125, 0, 0, 0, 0⟩
      (fun _ => 0) (fun _ => 0)
      = [⟨28, 125, 0, 0, 100, 0⟩, ⟨28, 125, 7, 7, 200, 1⟩] :=
  updateNumberOfParticles_idempotent _ 2 5 _ _ _ _ (by decide)

/-! Claim C5. -/

/-- C5: with zero particles in the container the derived pressure is exactly
zero, whatever momentum the wall-collision accumulator holds, and the
linked gauge listener sets the displayed kilopascals value to zero
immediately, leaving the refresh-period accumulator untouched (no wait for
the refresh period). -/
theorem pressure_zero_when_empty (accumulatedMomentum samplingWindow
    conversionConstant : ℚ) (g : GaugeState) :
    derivedPressure 0 accumulatedMomentum samplingWindow conversionConstant = 0 ∧
    (gaugeOnPressureChanged
        (derivedPressure 0 accumulatedMomentum samplingWindow conversionConstant)
        g).pressureKilopascals = 0 ∧
    (gaugeOnPressureChanged
        (derivedPressure 0 accumulatedMomentum samplingWindow conversionConstant)
        g).dtAccumulator = g.dtAccumulator := by
  refine ⟨rfl, ?_, ?_⟩ <;> simp [gaugeOnPressureChanged, derivedPressure]

/-! Gaussian sample lemmas, shared by the claims about addParticles. -/

theorem getGaussianValues_eq_shift (n : ℕ) (mean deviation : ℚ) (z : ℕ → ℚ) :
    getGaussianValues n mean deviation z =
      (List.range n).map fun i =>
        (mean + deviation * z i) +
          (mean - ((List.range n).map fun j => mean + deviation * z j).sum / n) := by
  unfold getGaussianValues
  rw [List.map_map]
  rfl

theorem getGaussianValues_length (n : ℕ) (mean deviation : ℚ) (z : ℕ → ℚ) :
    (getGaussianValues n mean deviation z).length = n := by
  simp [getGaussianValues]

theorem getGaussianValues_mean (n : ℕ) (mean deviation : ℚ) (z : ℕ → ℚ)
    (hn : 0 < n) :
    (getGaussianValues n mean deviation z).sum / n = mean := by
  have hcast : ((n : ℚ)) ≠ 0 := by
    exact_mod_cast Nat.pos_iff_ne_zero.mp hn
  unfold getGaussianValues
  rw [sum_map_add_const, List.length_map, List.length_range]
  field_simp

theorem particleTemperatures_length (cfg : ParticleSystemConfig) (n : ℕ)
    (z : ℕ → ℚ) : (particleTemperatures cfg n z).length = n := by
  unfold particleTemperatures
  split
  · exact getGaussianValues_length ..
  · simp

theorem particleTemperatures_mean (cfg : ParticleSystemConfig) (n : ℕ)
    (z : ℕ → ℚ) (hn : 0 < n) :
    (particleTemperatures cfg n z).sum / n = cfg.initialTemperature := by
  have hcast : ((n : ℚ)) ≠ 0 := by
    exact_mod_cast Nat.pos_iff_ne_zero.mp hn
  unfold particleTemperatures
  split
  · exact getGaussianValues_mean _ _ _ _ hn
  · rw [List.sum_replicate, nsmul_eq_mul]
    field_simp

/-! Claim C4. -/

/-- C4: when more than one particle is added while particle-particle
collisions are enabled, addParticles draws the per-particle initialization
temperatures through getGaussianValues with mean equal to the target
temperature and standard deviation 20 percent of the target; each raw
Gaussian sample mean + deviation * z i is then shifted by the difference
between the desired mean and the emergent sample mean, and the mean of the
resulting sample set equals the target temperature exactly. -/
theorem gaussian_temperatures_renormalized (cfg : ParticleSystemConfig)
    (n : ℕ) (mean deviation : ℚ) (z : ℕ → ℚ)
    (hn : 2 ≤ n) (hc : cfg.collisionsEnabled = true) :
    particleTemperatures cfg n z =
      getGaussianValues n cfg.initialTemperature (1/5 * cfg.initialTemperature) z ∧
    (getGaussianValues n mean deviation z).length = n ∧
    getGaussianValues n mean deviation z =
      ((List.range n).map fun i =>
        (mean + deviation * z i) +
          (mean - ((List.range n).map fun j => mean + deviation * z j).sum / n)) ∧
    (getGaussianValues n mean deviation z).sum / n = mean ∧
    (particleTemperatures cfg n z).sum / n = cfg.initialTemperature := by
  have hn0 : 0 < n := lt_of_lt_of_le (by norm_num) hn
  have hne : n ≠ 1 := by omega
  refine ⟨?_, getGaussianValues_length .., getGaussianValues_eq_shift ..,
    getGaussianValues_mean _ _ _ _ hn0, particleTemperatures_mean _ _ _ hn0⟩
  unfold particleTemperatures
  rw [if_pos ⟨hne, hc⟩]

/-- Witness for C4 at a concrete input: two particles, collisions enabled,
target temperature 300 K, Gaussian draws z = (2, -1). -/
theorem gaussian_temperatures_renormalized_witness :
    (particleTemperatures
        { initialTemperature := 300, collisionsEnabled := true, entryX := 0, entryY := 0 }
        2 (fun i => if i = 0 then 2 else -1) =
      getGaussianValues 2 300 (1/5 * 300) (fun i => if i = 0 then 2 else -1)) ∧
    (getGaussianValues 2 300 60 (fun i => if i = 0 then 2 else -1)).sum / 2 = 300 :=
  ⟨(gaussian_temperatures_renormalized _ 2 300 60 _ (by decide) rfl).1,
   (gaussian_temperatures_renormalized
      { initialTemperature := 300, collisionsEnabled := true, entryX := 0, entryY := 0 }
      2 300 60 (fun i => if i = 0 then 2 else -1) (by decide) rfl).2.2.2.1⟩

theorem getD_range_map {α : Type} (f : ℕ → α) (n i : ℕ) (h : i < n) (d : α) :
    ((List.range n).map f).getD i d = f i := by
  rw [List.getD_eq_getElem _ _ (by simpa using h)]
  simp

/-! Claim C2. -/

/-- C2: growing a species population target by n > 0 appends exactly n new
particles to the live collection (the original particles are kept, in
order, as the length-oldValue front of the result).  Each new particle is
positioned at the configured entry point, just inside the container and
offset by the particle radius; its squared velocity magnitude is
3*k*T/mass (the source sets the magnitude sqrt(3*k*T/mass)) where T is the
initialization temperature used for that particle, and its direction angle
lies in the dispersion interval [pi - pi/4, pi + pi/4) (in units of pi:
[3/4, 5/4)), centered on the inward normal pi.  The per-particle
initialization temperatures have mean equal to the system initialization
temperature, and equal it exactly whenever a single particle is added or
particle-particle collisions are disabled. -/
theorem growth_appends_n_particles (cfg : ParticleSystemConfig)
    (n oldValue : ℕ) (particles : List Particle) (proto : Particle)
    (z u : ℕ → ℚ) (hlen : particles.length = oldValue) (hn : 0 < n)
    (hu : ∀ i, 0 ≤ u i ∧ u i < 1) :
    (updateNumberOfParticles cfg (oldValue + n) oldValue particles proto z u).length
      = oldValue + n ∧
    (updateNumberOfParticles cfg (oldValue + n) oldValue particles proto z u).take oldValue
      = particles ∧
    (∀ p ∈ (updateNumberOfParticles cfg (oldValue + n) oldValue particles proto z u).drop
        oldValue,
      p.x = cfg.entryX - proto.radius ∧ p.y = cfg.entryY ∧
      p.mass = proto.mass ∧ p.radius = proto.radius ∧
      3/4 ≤ p.angleCoeff ∧ p.angleCoeff < 5/4) ∧
    (∀ i, i < n →
      (((updateNumberOfParticles cfg (oldValue + n) oldValue particles proto z u).drop
          oldValue).getD i proto).speedSq
        = 3 * BOLTZMANN * ((particleTemperatures cfg n z).getD i 0) / proto.mass) ∧
    (particleTemperatures cfg n z).length = n ∧
    (particleTemperatures cfg n z).sum / n = cfg.initialTemperature ∧
    ((n = 1 ∨ cfg.collisionsEnabled = false) →
      particleTemperatures cfg n z = List.replicate n cfg.initialTemperature) := by
  have hne : particles.length ≠ oldValue + n := by omega
  have hlt : oldValue < oldValue + n := by omega
  have hresult : updateNumberOfParticles cfg (oldValue + n) oldValue particles proto z u
      = particles ++ (List.range n).map (fun i =>
          createdParticle cfg proto ((particleTemperatures cfg n z).getD i 0) (u i)) := by
    unfold updateNumberOfParticles addParticles
    rw [if_pos hne, if_pos hlt, Nat.add_sub_cancel_left]
  have hdrop : (updateNumberOfParticles cfg (oldValue + n) oldValue particles proto z
      u).drop oldValue = (List.range n).map (fun i =>
        createdParticle cfg proto ((particleTemperatures cfg n z).getD i 0) (u i)) := by
    rw [hresult, ← hlen, List.drop_left]
  refine ⟨?_, ?_, ?_, ?_, particleTemperatures_length .., particleTemperatures_mean _ _ _ hn, ?_⟩
  · rw [hresult]
    simp [hlen]
  · rw [hresult, ← hlen, List.take_left]
  · intro p hp
    rw [hdrop] at hp
    obtain ⟨i, hi, hpi⟩ := List.mem_map.mp hp
    obtain ⟨hu0, hu1⟩ := hu i
    subst hpi
    refine ⟨rfl, rfl, rfl, rfl, ?_, ?_⟩ <;>
      · simp only [createdParticle, Particle.setLocationXY, Particle.setVelocityPolar,
          PARTICLE_DISPERSION_ANGLE_COEFF]
        linarith
  · intro i hi
    rw [hdrop, getD_range_map _ _ _ hi]
    rfl
  · intro hcase
    unfold particleTemperatures
    rw [if_neg]
    rcases hcase with h1 | h2
    · simp [h1]
    · simp [h2]

/-- Witness for C2 at a concrete input: grow the population from 1 to 3
with collisions disabled, entry point (100, 50), proto particle of mass 4
and radius 25/2, uniform angle draws 1/2. -/
theorem growth_appends_n_particles_witness :
    ((updateNumberOfParticles
        { initialTemperature := 300, collisionsEnabled := false, entryX := 100, entryY := 50 }
        (1 + 2) 1 [⟨4, 25/2, 0, 0, 9, 0⟩] ⟨4, 25/2, 0, 0, 0, 0⟩
        (fun _ => 0) (fun _ => 1/2)).length = 1 + 2) ∧
    (particleTemperatures
        { initialTemperature := 300, collisionsEnabled := false, entryX := 100, entryY := 50 }
        2 (fun _ => 0)).sum / 2 = 300 := by
  have h := growth_appends_n_particles
    { initialTemperature := 300, collisionsEnabled := false, entryX := 100, entryY := 50 }
    2 1 [⟨4, 25/2, 0, 0, 9, 0⟩] ⟨4, 25/2, 0, 0, 0, 0⟩
    (fun _ => 0) (fun _ => 1/2) (by decide) (by decide)
    (fun i => by constructor <;> norm_num)
  exact ⟨h.1, h.2.2.2.2.2.1⟩

theorem kineticEnergy_setTemperatureParticle (scale : ℚ) (p : Particle)
    (hm : p.mass ≠ 0) :
    (setTemperatureParticle scale p).kineticEnergy = scale * p.kineticEnergy := by
  simp only [setTemperatureParticle, Particle.setVelocityMagnitudeSq,
    Particle.kineticEnergy]
  field_simp

theorem totalKE_map_setTemperatureParticle (scale : ℚ) (l : List Particle)
    (hm : ∀ p ∈ l, p.mass ≠ 0) :
    totalKE (l.map (setTemperatureParticle scale)) = scale * totalKE l := by
  induction l with
  | nil => simp [totalKE]
  | cons a t ih =>
    have ha : a.mass ≠ 0 := hm a (List.mem_cons_self a t)
    have ht : ∀ p ∈ t, p.mass ≠ 0 := fun p hp => hm p (List.mem_cons_of_mem a hp)
    simp only [List.map_cons, totalKE, List.sum_cons] at *
    rw [kineticEnergy_setTemperatureParticle _ _ ha, ih ht]
    ring

/-! Claim C3. -/

/-- C3: for a non-empty particle system with strictly positive total kinetic
energy, after setTemperature rescales every particle velocity magnitude,
recomputing the instantaneous temperature (via the temperature derivation
of IdealModel.updateTemperature) from the resulting average kinetic energy
yields exactly the target value.  The hypotheses are the ones the claim
states plus the data-model invariant that each particle has positive mass;
the temperature is taken nonnegative because the source computes each new
speed through a square root of a quantity proportional to it. -/
theorem setTemperature_exact (sys : PSys) (temperature : ℚ)
    (hN : 0 < sys.numberOfParticles)
    (hKE : 0 < sys.getTotalKineticEnergy)
    (hT : 0 ≤ temperature)
    (hm : ∀ p ∈ sys.heavy ++ sys.light, 0 < p.mass) :
    updateTemperature (sys.setTemperature temperature).heavy
      (sys.setTemperature temperature).light = some temperature := by
  have hmh : ∀ p ∈ sys.heavy, p.mass ≠ 0 := fun p hp =>
    ne_of_gt (hm p (List.mem_append_left _ hp))
  have hml : ∀ p ∈ sys.light, p.mass ≠ 0 := fun p hp =>
    ne_of_gt (hm p (List.mem_append_right _ hp))
  have hNq : ((sys.heavy.length + sys.light.length : ℕ) : ℚ) ≠ 0 := by
    have : sys.heavy.length + sys.light.length ≠ 0 := by
      simpa [PSys.numberOfParticles] using Nat.pos_iff_ne_zero.mp hN
    exact_mod_cast this
  have hNq2 : ((sys.heavy.length : ℚ) + (sys.light.length : ℚ)) ≠ 0 := by
    push_cast at hNq
    exact hNq
  have hKEq : totalKE sys.heavy + totalKE sys.light ≠ 0 := by
    have : (0 : ℚ) < totalKE sys.heavy + totalKE sys.light := by
      simpa [PSys.getTotalKineticEnergy] using hKE
    exact ne_of_gt this
  have hB : BOLTZMANN ≠ 0 := by norm_num [BOLTZMANN]
  unfold PSys.setTemperature updateTemperature
  simp only [PSys.getAverageKineticEnergy, PSys.getTotalKineticEnergy,
    PSys.numberOfParticles]
  rw [totalKE_map_setTemperatureParticle _ _ hmh, totalKE_map_setTemperatureParticle _ _ hml]
  simp only [List.length_map]
  rw [if_neg (by exact_mod_cast fun h => hNq (by exact_mod_cast h))]
  congr 1
  field_simp
  ring

/-- Witness for C3 at a concrete input: one heavy particle of mass 28 and
squared speed 100, one light particle of mass 4 and squared speed 50,
target temperature 250 K. -/
theorem setTemperature_exact_witness :
    updateTemperature
      (PSys.setTemperature ⟨[⟨28, 125, 0, 0, 100, 0⟩], [⟨4, 87.5, 1, 1, 50, 0⟩]⟩ 250).heavy
      (PSys.setTemperature ⟨[⟨28, 125, 0, 0, 100, 0⟩], [⟨4, 87.5, 1, 1, 50, 0⟩]⟩ 250).light
      = some 250 :=
  setTemperature_exact ⟨[⟨28, 125, 0, 0, 100, 0⟩], [⟨4, 87.5, 1, 1, 50, 0⟩]⟩ 250
    (by decide)
    (by norm_num [PSys.getTotalKineticEnergy, totalKE, Particle.kineticEnergy])
    (by norm_num)
    (by norm_num)

theorem foldl_erase_drop (l2 : List Particle) :
    ∀ l1 : List Particle, (l1 ++ l2).Nodup →
      l2.foldl (fun acc q => acc.erase q) (l1 ++ l2) = l1 := by
  induction l2 with
  | nil => intro l1 _; simp
  | cons a t ih =>
    intro l1 hnd
    have hnotmem : a ∉ l1 := by
      rcases List.nodup_append.mp hnd with ⟨_, _, hdisj⟩
      intro hmem
      exact hdisj hmem (List.mem_cons_self a t)
    have hstep : (l1 ++ a :: t).erase a = l1 ++ t := by
      rw [List.erase_append_right _ hnotmem, List.erase_cons_head]
    have hnd2 : (l1 ++ t).Nodup := by
      refine List.Nodup.sublist ?_ hnd
      exact List.Sublist.append_left (List.sublist_cons_self a t) l1
    calc (a :: t).foldl (fun acc q => acc.erase q) (l1 ++ a :: t)
        = t.foldl (fun acc q => acc.erase q) ((l1 ++ a :: t).erase a) := by
          simp [List.foldl_cons]
      _ = l1 := by rw [hstep]; exact ih l1 hnd2

theorem removeParticles_eq_take (n : ℕ) (particles : List Particle)
    (hnd : particles.Nodup) :
    removeParticles n particles = particles.take (particles.length - n) := by
  unfold removeParticles removeParticle
  have key := foldl_erase_drop (particles.drop (particles.length - n))
    (particles.take (particles.length - n))
    (by rw [List.take_append_drop]; exact hnd)
  rw [List.take_append_drop] at key
  exact key

/-! Claim C8. -/

/-- C8: shrinking a species population target by n (n at most the live
count) removes exactly the n most-recently-added particles of that species
and keeps every earlier-added particle in its original order: the resulting
live collection is the length-(oldValue - n) front of the original.
Distinctness of the particle objects (Nodup as list values) mirrors
reference semantics in the source language, where each pushed particle is
a fresh object located by identity. -/
theorem shrink_removes_most_recent (cfg : ParticleSystemConfig)
    (n oldValue : ℕ) (particles : List Particle) (proto : Particle)
    (z u : ℕ → ℚ) (hnd : particles.Nodup) (hlen : particles.length = oldValue)
    (hn : 0 < n) (hle : n ≤ oldValue) :
    updateNumberOfParticles cfg (oldValue - n) oldValue particles proto z u
      = particles.take (oldValue - n) ∧
    (particles.drop (oldValue - n)).length = n := by
  have hne : particles.length ≠ oldValue - n := by omega
  have hnotlt : ¬ oldValue < oldValue - n := by omega
  have hlt : oldValue - n < oldValue := by omega
  have hcount : oldValue - (oldValue - n) = n := by omega
  constructor
  · unfold updateNumberOfParticles
    rw [if_pos hne, if_neg hnotlt, if_pos hlt, hcount,
      removeParticles_eq_take n particles hnd, hlen]
  · rw [List.length_drop]
    omega

/-- Witness for C8 at a concrete input: shrink a three-particle collection
from target 3 to target 1, removing the last two particles. -/
theorem shrink_removes_most_recent_witness :
    updateNumberOfParticles
      { initialTemperature := 300, collisionsEnabled := true, entryX := 0, entryY := 0 }
      (3 - 2) 3
      [⟨28, 125, 0, 0, 1, 0⟩, ⟨28, 125, 2, 0, 1, 0⟩, ⟨28, 125, 4, 0, 1, 0⟩]
      ⟨28, 125, 0, 0, 0, 0⟩ (fun _ => 0) (fun _ => 0)
      = [⟨28, 125, 0, 0, 1, 0⟩, ⟨28, 125, 2, 0, 1, 0⟩,
          ⟨28, 125, 4, 0, 1, 0⟩].take (3 - 2) :=
  (shrink_removes_most_recent _ 2 3 _ _ _ _ (by decide) (by decide) (by decide)
    (by decide)).1

theorem applyOp_widthRange (c : Container) (op : ContainerOp) :
    (c.applyOp op).widthRange = c.widthRange := by
  cases op with
  | setWidth w =>
    simp only [Container.applyOp, Container.setWidth]
    split <;> rfl
  | reset => rfl

theorem invariant_of_width_mem (c : Container) (hr : c.widthRange.WF)
    (hlow : c.widthRange.low ≤ c.width) (hhigh : c.width ≤ c.widthRange.high) :
    c.Invariant := by
  refine ⟨hlow, hhigh, ?_⟩
  have hw : 0 < c.width := lt_of_lt_of_le hr.1 hlow
  have hh : (0:ℚ) < containerHeight := by norm_num [containerHeight]
  have hd : (0:ℚ) < containerDepth := by norm_num [containerDepth]
  exact mul_pos (mul_pos hw hh) hd

theorem applyOp_invariant (c : Container) (op : ContainerOp)
    (hr : c.widthRange.WF) (hinv : c.Invariant) : (c.applyOp op).Invariant := by
  cases op with
  | setWidth w =>
    simp only [Container.applyOp, Container.setWidth]
    split
    · next h =>
      exact invariant_of_width_mem _ hr h.1 h.2
    · exact hinv
  | reset =>
    exact invariant_of_width_mem _ hr hr.2.1 hr.2.2

/-! Claim C9. -/

/-- C9: container invariant.  Starting from a fresh container over a
well-formed configured width range (positive minimum, default inside the
range), after any sequence of width mutations (range-validated width
assignments and resets) the width lies within the configured range and the
derived volume width * height * depth is strictly positive. -/
theorem container_invariant (r : WidthRange) (hr : r.WF)
    (ops : List ContainerOp) :
    ((Container.init r).applyOps ops).Invariant ∧
    ((Container.init r).applyOps ops).widthRange = r := by
  unfold Container.applyOps
  induction ops using List.reverseRecOn with
  | nil =>
    refine ⟨invariant_of_width_mem _ hr hr.2.1 hr.2.2, rfl⟩
  | append_singleton ops op ih =>
    rw [List.foldl_append, List.foldl_cons, List.foldl_nil]
    obtain ⟨hinv, hrange⟩ := ih
    refine ⟨applyOp_invariant _ _ (by rw [hrange]; exact hr) hinv, ?_⟩
    rw [applyOp_widthRange, hrange]

/-- Witness for C9 at a concrete input: the default width range
RangeWithValue(5000, 15000, 10000) with an in-range assignment, an
out-of-range request and a reset. -/
theorem container_invariant_witness :
    ((Container.init defaultWidthRange).applyOps
        [ContainerOp.setWidth 7000, ContainerOp.setWidth 20000,
         ContainerOp.reset]).Invariant ∧
    ((Container.init defaultWidthRange).applyOps
        [ContainerOp.setWidth 7000, ContainerOp.setWidth 20000,
         ContainerOp.reset]).widthRange = defaultWidthRange :=
  container_invariant defaultWidthRange (by decide)
    [ContainerOp.setWidth 7000, ContainerOp.setWidth 20000, ContainerOp.reset]

/-! Claim C10. -/

theorem linearFunctionClamped_lower (a1 a2 b1 b2 x : ℚ) :
    min b1 b2 ≤ linearFunctionClamped a1 a2 b1 b2 x := by
  unfold linearFunctionClamped
  exact le_max_left _ _

theorem noise_sum_nonneg (pressure nm : ℚ) (sign : Bool) (hp : 0 ≤ pressure)
    (hnm : 0 ≤ nm) :
    0 ≤ pressure + (if nm < pressure then (if sign then nm else -nm) else nm) := by
  split
  · next h => cases sign <;> simp <;> linarith
  · linarith

/-- C10: the displayed gauge value is never negative.  Given a nonnegative
model pressure, a nonnegative uniform draw and a nonnegative currently
displayed value, the value displayed after PressureGauge.step is
nonnegative: the noise magnitude is a product of nonnegative factors, and
a negative sign is applied to it only when it is strictly smaller than the
model pressure. -/
theorem gauge_displayed_nonneg (dt maxPressure pressure : ℚ)
    (temperature : Option ℚ) (holdConstant : HoldConstant)
    (pressureNoiseOption : Bool) (u : ℚ) (positiveSign : Bool) (g : GaugeState)
    (hp : 0 ≤ pressure) (hu : 0 ≤ u) (hg : 0 ≤ g.pressureKilopascals) :
    0 ≤ (pressureGaugeStep dt maxPressure pressure temperature holdConstant
        pressureNoiseOption u positiveSign g).pressureKilopascals := by
  have hnoise0 : (0:ℚ) ≤ pressureNoiseFunction maxPressure pressure := by
    have := linearFunctionClamped_lower 0 maxPressure MAX_NOISE MIN_NOISE pressure
    simpa [pressureNoiseFunction, MAX_NOISE, MIN_NOISE] using this
  have hscale0 : (0:ℚ) ≤ scaleNoiseFunction (temperature.getD 0) := by
    have := linearFunctionClamped_lower 5 50 0 1 (temperature.getD 0)
    simpa [scaleNoiseFunction] using this
  unfold pressureGaugeStep
  by_cases hacc : REFRESH_PERIOD ≤ g.dtAccumulator + dt
  · rw [if_pos hacc]
    refine noise_sum_nonneg pressure _ positiveSign hp ?_
    split
    · exact mul_nonneg (mul_nonneg hnoise0 hscale0) hu
    · exact le_refl 0
  · rw [if_neg hacc]
    exact hg

/-- Witness for C10 at a concrete input: a refresh step at pressure 100 kPa
with noise enabled, temperature 300 K, uniform draw 1/2 and a negative
sign draw. -/
theorem gauge_displayed_nonneg_witness :
    0 ≤ (pressureGaugeStep 1 1000 100 (some 300) HoldConstant.nothing
        true (1/2) false ⟨100, 0⟩).pressureKilopascals :=
  gauge_displayed_nonneg 1 1000 100 (some 300) HoldConstant.nothing true (1/2)
    false ⟨100, 0⟩ (by norm_num) (by norm_num) (by norm_num)

theorem bounceOffVerticalWalls_y (b : Bounds) (p : Particle) :
    (bounceOffVerticalWalls b p).y = p.y := by
  unfold bounceOffVerticalWalls
  split
  · rfl
  · split <;> rfl

theorem bounceOffVerticalWalls_radius (b : Bounds) (p : Particle) :
    (bounceOffVerticalWalls b p).radius = p.radius := by
  unfold bounceOffVerticalWalls
  split
  · rfl
  · split <;> rfl

theorem bounceOffVerticalWalls_x (b : Bounds) (p : Particle)
    (hr : 0 ≤ p.radius) (hx : 2 * p.radius ≤ b.maxX - b.minX) :
    b.minX ≤ (bounceOffVerticalWalls b p).x - p.radius ∧
    (bounceOffVerticalWalls b p).x + p.radius ≤ b.maxX := by
  unfold bounceOffVerticalWalls
  split
  · next h => constructor <;> (try simp) <;> linarith
  · split
    · next h1 h2 =>
      constructor <;> (try simp) <;> linarith
    · next h1 h2 =>
      push_neg at h1 h2
      constructor <;> (try simp) <;> linarith

theorem bounceOffHorizontalWalls_x (b : Bounds) (p : Particle) :
    (bounceOffHorizontalWalls b p).x = p.x := by
  unfold bounceOffHorizontalWalls
  split
  · rfl
  · split <;> rfl

theorem bounceOffHorizontalWalls_radius (b : Bounds) (p : Particle) :
    (bounceOffHorizontalWalls b p).radius = p.radius := by
  unfold bounceOffHorizontalWalls
  split
  · rfl
  · split <;> rfl

theorem bounceOffHorizontalWalls_y (b : Bounds) (p : Particle)
    (hr : 0 ≤ p.radius) (hy : 2 * p.radius ≤ b.maxY - b.minY) :
    b.minY ≤ (bounceOffHorizontalWalls b p).y - p.radius ∧
    (bounceOffHorizontalWalls b p).y + p.radius ≤ b.maxY := by
  unfold bounceOffHorizontalWalls
  split
  · next h => constructor <;> (try simp) <;> linarith
  · split
    · next h1 h2 =>
      constructor <;> (try simp) <;> linarith
    · next h1 h2 =>
      push_neg at h1 h2
      constructor <;> (try simp) <;> linarith

theorem bounceOffWalls_contains (b : Bounds) (p : Particle)
    (hr : 0 ≤ p.radius) (hx : 2 * p.radius ≤ b.maxX - b.minX)
    (hy : 2 * p.radius ≤ b.maxY - b.minY) :
    b.containsParticle (bounceOffWalls b p) := by
  unfold bounceOffWalls Bounds.containsParticle
  have hradv := bounceOffVerticalWalls_radius b p
  have hradh := bounceOffHorizontalWalls_radius b (bounceOffVerticalWalls b p)
  have hxs := bounceOffVerticalWalls_x b p hr hx
  have hxkeep := bounceOffHorizontalWalls_x b (bounceOffVerticalWalls b p)
  have hykeep := bounceOffVerticalWalls_y b p
  have hys := bounceOffHorizontalWalls_y b (bounceOffVerticalWalls b p)
    (by rw [hradv]; exact hr) (by rw [hradv]; exact hy)
  rw [hradv] at hys
  refine ⟨?_, ?_, ?_, ?_⟩
  · rw [hradh, hradv, hxkeep]
    exact hxs.1
  · rw [hradh, hradv, hxkeep]
    exact hxs.2
  · rw [hradh, hradv]
    exact hys.1
  · rw [hradh, hradv]
    exact hys.2

theorem doParticleContainerCollisions_contains (particles : List Particle)
    (b : Bounds)
    (h : ∀ p ∈ particles, 0 ≤ p.radius ∧ 2 * p.radius ≤ b.maxX - b.minX ∧
      2 * p.radius ≤ b.maxY - b.minY) :
    ∀ q ∈ doParticleContainerCollisions particles b, b.containsParticle q := by
  intro q hq
  obtain ⟨p, hp, hpq⟩ := List.mem_map.mp hq
  obtain ⟨hr, hx, hy⟩ := h p hp
  subst hpq
  exact bounceOffWalls_contains b p hr hx hy

/-! Claim C6. -/

/-- C6: diffusion-variant particle-container collisions.  While the divider
is present the detector resolves each species against the bounds of its own
side as an independent container (species 1 against the left bounds,
species 2 against the right bounds, both with a stationary left wall), and
afterwards every species-1 particle disc lies left of the divider line and
every species-2 particle disc lies right of it, so no particle crosses the
divider.  When the divider is absent, both species are resolved against the
full outer container bounds and end up contained in them.  The hypotheses
are geometric well-formedness: the divider lies inside the outer bounds and
each particle has nonnegative radius with a diameter that fits the relevant
side (or, without the divider, the full container). -/
theorem diffusion_collisions_respect_divider (c : DiffusionContainer)
    (particles1 particles2 : List Particle)
    (hdiv : c.bounds.minX ≤ c.dividerX ∧ c.dividerX ≤ c.bounds.maxX)
    (h1 : ∀ p ∈ particles1, 0 ≤ p.radius ∧
      2 * p.radius ≤ c.dividerX - c.bounds.minX ∧
      2 * p.radius ≤ c.bounds.maxY - c.bounds.minY)
    (h2 : ∀ p ∈ particles2, 0 ≤ p.radius ∧
      2 * p.radius ≤ c.bounds.maxX - c.dividerX ∧
      2 * p.radius ≤ c.bounds.maxY - c.bounds.minY) :
    (c.hasDivider = true →
      updateParticleContainerCollisions c particles1 particles2 =
        (doParticleContainerCollisions particles1 c.leftBounds,
         doParticleContainerCollisions particles2 c.rightBounds) ∧
      (∀ q ∈ (updateParticleContainerCollisions c particles1 particles2).1,
        c.leftBounds.containsParticle q ∧ q.x + q.radius ≤ c.dividerX) ∧
      (∀ q ∈ (updateParticleContainerCollisions c particles1 particles2).2,
        c.rightBounds.containsParticle q ∧ c.dividerX ≤ q.x - q.radius)) ∧
    (c.hasDivider = false →
      updateParticleContainerCollisions c particles1 particles2 =
        (doParticleContainerCollisions particles1 c.bounds,
         doParticleContainerCollisions particles2 c.bounds) ∧
      (∀ q ∈ (updateParticleContainerCollisions c particles1 particles2).1,
        c.bounds.containsParticle q) ∧
      (∀ q ∈ (updateParticleContainerCollisions c particles1 particles2).2,
        c.bounds.containsParticle q)) := by
  constructor
  · intro hd
    have heq : updateParticleContainerCollisions c particles1 particles2 =
        (doParticleContainerCollisions particles1 c.leftBounds,
         doParticleContainerCollisions particles2 c.rightBounds) := by
      unfold updateParticleContainerCollisions
      rw [hd]
      simp
    have hleft : ∀ q ∈ doParticleContainerCollisions particles1 c.leftBounds,
        c.leftBounds.containsParticle q := by
      refine doParticleContainerCollisions_contains _ _ ?_
      intro p hp
      obtain ⟨hr, hx, hy⟩ := h1 p hp
      exact ⟨hr, hx, hy⟩
    have hright : ∀ q ∈ doParticleContainerCollisions particles2 c.rightBounds,
        c.rightBounds.containsParticle q := by
      refine doParticleContainerCollisions_contains _ _ ?_
      intro p hp
      obtain ⟨hr, hx, hy⟩ := h2 p hp
      exact ⟨hr, hx, hy⟩
    refine ⟨heq, ?_, ?_⟩
    · intro q hq
      rw [heq] at hq
      have hcont := hleft q hq
      exact ⟨hcont, hcont.2.1⟩
    · intro q hq
      rw [heq] at hq
      have hcont := hright q hq
      exact ⟨hcont, hcont.1⟩
  · intro hd
    have heq : updateParticleContainerCollisions c particles1 particles2 =
        (doParticleContainerCollisions particles1 c.bounds,
         doParticleContainerCollisions particles2 c.bounds) := by
      unfold updateParticleContainerCollisions
      rw [hd]
      simp
    have hfull1 : ∀ q ∈ doParticleContainerCollisions particles1 c.bounds,
        c.bounds.containsParticle q := by
      refine doParticleContainerCollisions_contains _ _ ?_
      intro p hp
      obtain ⟨hr, hx, hy⟩ := h1 p hp
      exact ⟨hr, by linarith [hdiv.2], hy⟩
    have hfull2 : ∀ q ∈ doParticleContainerCollisions particles2 c.bounds,
        c.bounds.containsParticle q := by
      refine doParticleContainerCollisions_contains _ _ ?_
      intro p hp
      obtain ⟨hr, hx, hy⟩ := h2 p hp
      exact ⟨hr, by linarith [hdiv.1], hy⟩
    refine ⟨heq, ?_, ?_⟩
    · intro q hq
      rw [heq] at hq
      exact hfull1 q hq
    · intro q hq
      rw [heq] at hq
      exact hfull2 q hq

/-- Witness for C6 at a concrete input: a divided container over
[0,10000] x [0,8750] with the divider at x = 5000, one species-1 particle
straddling the divider from the left and one species-2 particle straddling
it from the right. -/
theorem diffusion_collisions_respect_divider_witness :
    (∀ q ∈ (updateParticleContainerCollisions
        ⟨⟨0, 10000, 0, 8750⟩, 5000, true⟩
        [⟨28, 100, 4950, 100, 1, 0⟩] [⟨28, 100, 5050, 200, 1, 0⟩]).1,
      (DiffusionContainer.leftBounds ⟨⟨0, 10000, 0, 8750⟩, 5000, true⟩).containsParticle q ∧
        q.x + q.radius ≤ 5000) ∧
    (∀ q ∈ (updateParticleContainerCollisions
        ⟨⟨0, 10000, 0, 8750⟩, 5000, true⟩
        [⟨28, 100, 4950, 100, 1, 0⟩] [⟨28, 100, 5050, 200, 1, 0⟩]).2,
      (DiffusionContainer.rightBounds ⟨⟨0, 10000, 0, 8750⟩, 5000, true⟩).containsParticle q ∧
        (5000:ℚ) ≤ q.x - q.radius) := by
  have h := diffusion_collisions_respect_divider
    ⟨⟨0, 10000, 0, 8750⟩, 5000, true⟩
    [⟨28, 100, 4950, 100, 1, 0⟩] [⟨28, 100, 5050, 200, 1, 0⟩]
    (by norm_num) (by intro p hp; simp at hp; subst hp; norm_num)
    (by intro p hp; simp at hp; subst hp; norm_num)
  exact ⟨(h.1 rfl).2.1, (h.1 rfl).2.2⟩

end GasProps
